import Mathlib

/-!
Verification development for bench.py, a load-testing client driving an
OpenAI-compatible chat-completion endpoint.  The embedding models the
request worker (send_request), its streaming server-sent-event parsing
loop, the result aggregation performed by run_bench, and the
semaphore-bounded orchestration of run_bench as a small-step transition
system.  Wall-clock instants are modelled as rationals; JSON chunks are
modelled structurally, with the payload decoder (json.loads plus field
access) abstracted as a function from payload strings to optional chunks.
-/

namespace VBench

/-- Mirror of the RequestResult dataclass: one record per submitted prompt. -/
structure RequestResult where
  prompt : String := ("")
  status : String := ("ok")
  ttft_ms : ℚ := 0
  total_time_s : ℚ := 0
  prompt_tokens : ℕ := 0
  completion_tokens : ℕ := 0
  tokens_per_sec : ℚ := 0
  error : String := ("")
deriving DecidableEq

/-- Delta object of a streamed chunk choice; content may be absent or null. -/
structure Delta where
  content : Option String
deriving DecidableEq

/-- One element of the choices array of a streamed chunk. -/
structure Choice where
  delta : Option Delta
deriving DecidableEq

/-- Usage block carried by a chunk or by a non-streamed response body. -/
structure Usage where
  prompt_tokens : Option ℕ
  completion_tokens : Option ℕ
deriving DecidableEq

/-- A successfully decoded streamed JSON chunk. -/
structure Chunk where
  choices : Option (List Choice)
  usage : Option Usage
deriving DecidableEq

def emptyDelta : Delta := ⟨none⟩

def emptyChoice : Choice := ⟨none⟩

def emptyUsage : Usage := ⟨none, none⟩

/-- One raw line of the response stream together with its arrival instant. -/
structure TimedLine where
  text : String
  t : ℚ
deriving DecidableEq

/-- How the line stream terminates when the loop reads past the last line:
normally, or with a transport exception carrying a message and the
instant at which the exception is observed. -/
inductive StreamEnd where
  | normal : StreamEnd
  | exn (msg : String) (t : ℚ) : StreamEnd
deriving DecidableEq

/-- The streamed response body: its lines, its termination behaviour, and
the instant at which the loop finishes when it completes without a
transport exception. -/
structure StreamBody where
  lines : List TimedLine
  ending : StreamEnd
  endTime : ℚ
deriving DecidableEq

/-- Body of a non-streamed response, as far as send_request reads it. -/
structure JsonData where
  usage : Option Usage
deriving DecidableEq

/-- Outcome of awaiting resp.json on the non-streaming path: a decode
exception, or the decoded data together with the instant it is available. -/
inductive JsonOutcome where
  | exn (msg : String) (t : ℚ) : JsonOutcome
  | ok (data : JsonData) (endTime : ℚ) : JsonOutcome
deriving DecidableEq

/-- An HTTP response as observed by send_request: status code, the text
used on the non-200 path together with the instant that path returns,
and the body under each of the two consumption modes. -/
structure RespData where
  status : ℕ
  text : String
  textTime : ℚ
  sbody : StreamBody
  jbody : JsonOutcome
deriving DecidableEq

/-- Everything the network does for one request: either the POST itself
raises, or a response arrives. -/
inductive HttpOutcome where
  | postExn (msg : String) (t : ℚ) : HttpOutcome
  | response (r : RespData) : HttpOutcome
deriving DecidableEq

/-- State of the streaming loop of send_request: the accumulated
completion text, the last successfully decoded chunk, and the recorded
first-token instant if any. -/
structure LoopState where
  completionText : String
  lastChunk : Option Chunk
  firstTokenTime : Option ℚ
deriving DecidableEq

def initLoopState : LoopState := ⟨(""), none, none⟩

/-- Result of processing one line: continue with a new state, break out
of the loop, or abort the whole request with an exception. -/
inductive StepOut where
  | cont (s : LoopState) : StepOut
  | brk : StepOut
  | fail (msg : String) (t : ℚ) : StepOut
deriving DecidableEq

/-- Result of the whole line loop: the lines ran out, a DONE sentinel
broke the loop, or an exception aborted it. -/
inductive LoopResult where
  | ranOut (s : LoopState) : LoopResult
  | broke (s : LoopState) : LoopResult
  | failed (msg : String) (t : ℚ) : LoopResult
deriving DecidableEq

/-- Model of str.strip of Python: remove whitespace characters from both
ends of the string, working on the character list. -/
def pyStrip (s : String) : String :=
  ⟨(((s.data.dropWhile Char.isWhitespace).reverse).dropWhile Char.isWhitespace).reverse⟩

/-- Model of line.startswith applied to the data prefix. -/
def startsWithData (s : String) : Bool :=
  ("data:").data.isPrefixOf s.data

/-- Model of Python slicing line[5:] on the character list. -/
def dropFive (s : String) : String := ⟨s.data.drop 5⟩

/-- Payload of a line: the stripped line with the five-character data
prefix removed and stripped again. -/
def payloadOf (l : TimedLine) : String := pyStrip (dropFive (pyStrip l.text))

/-- Effect of one successfully decoded chunk on the loop state, given the
first choice that the code extracts: record the chunk as last chunk,
append the content fragment, and record the first-token instant when a
non-empty fragment arrives for the first time. -/
def applyChunk (s : LoopState) (chunk : Chunk) (c : Choice) (t : ℚ) : LoopState :=
  let delta := c.delta.getD emptyDelta
  let tokenText := delta.content.getD ("")
  let ftt := if tokenText ≠ ("") ∧ s.firstTokenTime = none then some t else s.firstTokenTime
  ⟨s.completionText ++ tokenText, some chunk, ftt⟩

/-- Processing of one raw line by the loop body of send_request.  Lines
without the data prefix are skipped; a DONE payload breaks the loop; an
undecodable payload is skipped; a decoded chunk whose choices key holds
an empty array raises an IndexError, modelled as a failure carrying the
message of the Python exception. -/
def stepLine (decode : String → Option Chunk) (s : LoopState) (l : TimedLine) : StepOut :=
  if startsWithData (pyStrip l.text) then
    if payloadOf l = ("[DONE]") then StepOut.brk
    else
      match decode (payloadOf l) with
      | none => StepOut.cont s
      | some chunk =>
        match chunk.choices with
        | some [] => StepOut.fail ("list index out of range") l.t
        | none => StepOut.cont (applyChunk s chunk emptyChoice l.t)
        | some (c :: _) => StepOut.cont (applyChunk s chunk c l.t)
  else StepOut.cont s

/-- The async-for loop over the raw lines of the streamed body. -/
def runLines (decode : String → Option Chunk) : LoopState → List TimedLine → LoopResult
  | s, [] => LoopResult.ranOut s
  | s, l :: ls =>
    match stepLine decode s l with
    | StepOut.cont s2 => runLines decode s2 ls
    | StepOut.brk => LoopResult.broke s
    | StepOut.fail m t => LoopResult.failed m t

/-- Outcome of consuming the streamed body: the final loop state on
success, or the exception message and instant on failure.  A transport
exception at the end of the lines only fires when the loop actually
reads past the last line, that is, when no DONE sentinel broke the loop. -/
def streamOutcome (decode : String → Option Chunk) (b : StreamBody) :
    Except (String × ℚ) LoopState :=
  match runLines decode initLoopState b.lines with
  | LoopResult.failed m t => Except.error (m, t)
  | LoopResult.broke s => Except.ok s
  | LoopResult.ranOut s =>
    match b.ending with
    | StreamEnd.exn m t => Except.error (m, t)
    | StreamEnd.normal => Except.ok s

/-- The result record produced by the except branch of send_request: only
status, error and total elapsed time are set; every other field keeps the
value it had at the point of failure, which on all throwing paths is the
dataclass default. -/
def errResult (prompt msg : String) (elapsed : ℚ) : RequestResult :=
  ⟨prompt, ("error"), 0, elapsed, 0, 0, 0, msg⟩

/-- Post-loop bookkeeping of the streaming path: elapsed time, the
chars-over-four fallback completion-token estimate, TTFT when a first
token was seen, the usage override taken from the last decoded chunk
when its fields are truthy, and the tokens-per-second derivation. -/
def finishStream (prompt : String) (t0 endTime : ℚ) (s : LoopState) : RequestResult :=
  let total : ℚ := endTime - t0
  let ctFallback : ℕ := max 1 (s.completionText.length / 4)
  let ttft : ℚ := match s.firstTokenTime with
    | some t => (t - t0) * 1000
    | none => 0
  let ct : ℕ := match s.lastChunk with
    | none => ctFallback
    | some c =>
      match (c.usage.getD emptyUsage).completion_tokens with
      | some v => if v ≠ 0 then v else ctFallback
      | none => ctFallback
  let pt : ℕ := match s.lastChunk with
    | none => 0
    | some c =>
      match (c.usage.getD emptyUsage).prompt_tokens with
      | some v => if v ≠ 0 then v else 0
      | none => 0
  let tps : ℚ := if ct ≠ 0 ∧ total > 0 then (ct : ℚ) / total else 0
  ⟨prompt, ("ok"), ttft, total, pt, ct, tps, ("")⟩

/-- The non-streaming path of send_request: decode the body once, read
the usage block with zero defaults, and derive tokens per second. -/
def plainResult (prompt : String) (t0 : ℚ) (j : JsonOutcome) : RequestResult :=
  match j with
  | JsonOutcome.exn m t => errResult prompt m (t - t0)
  | JsonOutcome.ok data endTime =>
    let total : ℚ := endTime - t0
    let usage := data.usage.getD emptyUsage
    let pt : ℕ := usage.prompt_tokens.getD 0
    let ct : ℕ := usage.completion_tokens.getD 0
    let tps : ℚ := if ct ≠ 0 ∧ total > 0 then (ct : ℚ) / total else 0
    ⟨prompt, ("ok"), 0, total, pt, ct, tps, ("")⟩

/-- Shallow embedding of send_request of bench.py: the network behaviour
is an explicit input, the JSON payload decoder is an explicit function,
and the function is total, returning the RequestResult the Python
coroutine would return. -/
def send_request (decode : String → Option Chunk) (prompt : String)
    (stream : Bool) (t0 : ℚ) (outcome : HttpOutcome) : RequestResult :=
  match outcome with
  | HttpOutcome.postExn m t => errResult prompt m (t - t0)
  | HttpOutcome.response r =>
    if r.status ≠ 200 then
      ⟨prompt, ("error"), 0, r.textTime - t0, 0, 0, 0,
        ("HTTP ") ++ toString r.status ++ (": ") ++ r.text⟩
    else if stream then
      match streamOutcome decode r.sbody with
      | Except.error (m, t) => errResult prompt m (t - t0)
      | Except.ok s => finishStream prompt t0 r.sbody.endTime s
    else
      plainResult prompt t0 r.jbody

/-- Summary statistics computed by run_bench after the batch completes. -/
structure BatchSummary where
  ok_count : ℕ
  err_count : ℕ
  total_comp : ℕ
  total_prompt : ℕ
  avg_tps : ℚ
  aggregate_tps : ℚ
  avg_ttft : ℚ
  p50 : ℚ
  fastest : ℚ
  slowest : ℚ
deriving DecidableEq

/-- The ok partition of the result list, as filtered by run_bench. -/
def okList (rs : List RequestResult) : List RequestResult :=
  rs.filter (fun r => r.status = ("ok"))

/-- Per-request tokens-per-second values of the ok results. -/
def tpsList (rs : List RequestResult) : List ℚ :=
  (okList rs).map (fun r => r.tokens_per_sec)

/-- Shallow embedding of the aggregation step of run_bench: when the ok
set is empty, no summary is produced (the code prints a failure message
and returns); otherwise the sums, averages, the lower median of the
sorted tokens-per-second list, and the extremes are computed. -/
def run_bench_summary (rs : List RequestResult) (wall : ℚ) : Option BatchSummary :=
  let ok := okList rs
  if ok.isEmpty then none
  else
    let total_comp : ℕ := (ok.map (fun r => r.completion_tokens)).sum
    let total_prompt : ℕ := (ok.map (fun r => r.prompt_tokens)).sum
    let tps := ok.map (fun r => r.tokens_per_sec)
    let avg_tps : ℚ := tps.sum / (ok.length : ℚ)
    let aggregate_tps : ℚ := if wall ≠ 0 then (total_comp : ℚ) / wall else 0
    let ttfts := (ok.filter (fun r => r.ttft_ms ≠ 0)).map (fun r => r.ttft_ms)
    let avg_ttft : ℚ := ttfts.sum / (max 1 ttfts.length : ℕ)
    let p50 : ℚ := (tps.mergeSort).getD (ok.length / 2) 0
    let fastest : ℚ := (tps.max?).getD 0
    let slowest : ℚ := (tps.min?).getD 0
    some ⟨ok.length, rs.length - ok.length, total_comp, total_prompt,
      avg_tps, aggregate_tps, avg_ttft, p50, fastest, slowest⟩

/-- Status of one worker task of run_bench: waiting on the semaphore,
holding a slot with its request in flight, or finished with its result
collected. -/
inductive WStatus where
  | waiting : WStatus
  | running : WStatus
  | done : WStatus
deriving DecidableEq, BEq

/-- Number of workers currently holding a semaphore slot. -/
def runningCount (ws : List WStatus) : ℕ :=
  ws.countP (fun w => w == WStatus.running)

/-- Number of workers whose result has been produced. -/
def doneCount (ws : List WStatus) : ℕ :=
  ws.countP (fun w => w == WStatus.done)

/-- Small-step semantics of the bounded helper of run_bench with
semaphore capacity C: a waiting worker may acquire a slot only when
fewer than C workers hold one, and a running worker may finish at any
time, releasing its slot and delivering its result. -/
inductive OStep (C : ℕ) : List WStatus → List WStatus → Prop
  | start (l₁ l₂ : List WStatus) :
      runningCount (l₁ ++ WStatus.waiting :: l₂) < C →
      OStep C (l₁ ++ WStatus.waiting :: l₂) (l₁ ++ WStatus.running :: l₂)
  | finish (l₁ l₂ : List WStatus) :
      OStep C (l₁ ++ WStatus.running :: l₂) (l₁ ++ WStatus.done :: l₂)

/-- States reachable by run_bench with N submitted workers and
semaphore capacity C, starting from all workers waiting. -/
inductive OReachable (C N : ℕ) : List WStatus → Prop
  | init : OReachable C N (List.replicate N WStatus.waiting)
  | step {s s' : List WStatus} :
      OReachable C N s → OStep C s s' → OReachable C N s'

/-- A state from which no step is possible: the batch can make no further
progress. -/
def OTerminal (C : ℕ) (ws : List WStatus) : Prop :=
  ∀ ws', ¬ OStep C ws ws'

/-- Concrete payload decoder used for witnesses and counterexamples: the
payload A decodes to a chunk carrying six characters of content and a
usage block reporting seven prompt tokens and five completion tokens;
B decodes to a chunk carrying five characters of content and no usage
block; C decodes to a chunk carrying seventeen characters of content and
no usage block; everything else fails to decode. -/
def decodeW : String → Option Chunk := fun p =>
  if p = ("A") then some ⟨some [⟨some ⟨some ("Hello!")⟩⟩], some ⟨some 7, some 5⟩⟩
  else if p = ("B") then some ⟨some [⟨some ⟨some ("world")⟩⟩], none⟩
  else if p = ("C") then some ⟨some [⟨some ⟨some ("qwertyuiopasdfghj")⟩⟩], none⟩
  else none

/-! Helper lemmas shared by several claim theorems. -/

/-- On the streaming path with a 200 response, a successful stream
consumption reduces send_request to the post-loop bookkeeping. -/
theorem send_request_stream_ok {decode : String → Option Chunk} {prompt : String}
    {t0 : ℚ} {r : RespData} {s : LoopState} (h200 : r.status = 200)
    (hs : streamOutcome decode r.sbody = Except.ok s) :
    send_request decode prompt true t0 (HttpOutcome.response r) =
      finishStream prompt t0 r.sbody.endTime s := by
  simp [send_request, h200, hs]

/-- Claim C8: for every response with HTTP status different from 200,
send_request returns immediately a result with status error, error text
HTTP status colon body, elapsed time recorded, zero token counts and
zero tokens per second. -/
theorem send_request_non200 (decode : String → Option Chunk) (prompt : String)
    (stream : Bool) (t0 : ℚ) (r : RespData) (h : r.status ≠ 200) :
    send_request decode prompt stream t0 (HttpOutcome.response r) =
      ⟨prompt, ("error"), 0, r.textTime - t0, 0, 0, 0,
        ("HTTP ") ++ toString r.status ++ (": ") ++ r.text⟩ := by
  simp [send_request, h]

/-- Witness for C8: a 500 response with body overloaded yields an error
result with message HTTP 500 colon overloaded and zero tokens per second. -/
theorem send_request_non200_witness :
    send_request (fun _ => none) ("p") true 0
        (HttpOutcome.response ⟨500, ("overloaded"), 2, ⟨[], StreamEnd.normal, 0⟩,
          JsonOutcome.exn ("") 0⟩) =
      ⟨("p"), ("error"), 0, 2, 0, 0, 0, ("HTTP 500: overloaded")⟩ := by
  rw [send_request_non200 (fun _ => none) ("p") true 0
    ⟨500, ("overloaded"), 2, ⟨[], StreamEnd.normal, 0⟩, JsonOutcome.exn ("") 0⟩ (by decide)]
  norm_num
  decide

/-- Claim C4: send_request never raises past its boundary; every
exception arising during the request, whether the POST itself raises,
the streamed body consumption raises, or the JSON decode of the
non-streamed body raises, is mapped to a result with status error whose
error field holds the exception message and whose total time records the
elapsed time up to the failure instant, all other fields keeping their
defaults. -/
theorem send_request_exception_contained (decode : String → Option Chunk)
    (prompt : String) (t0 : ℚ) :
    (∀ (stream : Bool) (m : String) (t : ℚ),
      send_request decode prompt stream t0 (HttpOutcome.postExn m t) =
        errResult prompt m (t - t0)) ∧
    (∀ (r : RespData) (m : String) (t : ℚ), r.status = 200 →
      streamOutcome decode r.sbody = Except.error (m, t) →
      send_request decode prompt true t0 (HttpOutcome.response r) =
        errResult prompt m (t - t0)) ∧
    (∀ (r : RespData) (m : String) (t : ℚ), r.status = 200 →
      r.jbody = JsonOutcome.exn m t →
      send_request decode prompt false t0 (HttpOutcome.response r) =
        errResult prompt m (t - t0)) := by
  refine ⟨fun stream m t => rfl, fun r m t h200 hexc => ?_, fun r m t h200 hj => ?_⟩
  · simp [send_request, h200, hexc]
  · simp [send_request, h200, plainResult, hj]

/-- Witness for C4: a POST timeout, a mid-stream transport error, and a
JSON decode failure each yield an error result carrying the exception
message and the elapsed time at the failure instant. -/
theorem send_request_exception_contained_witness :
    send_request decodeW ("p") true 1 (HttpOutcome.postExn ("timeout") 3) =
        errResult ("p") ("timeout") (3 - 1) ∧
    send_request decodeW ("p") true 1
        (HttpOutcome.response ⟨200, (""), 0,
          ⟨[⟨("data: B"), 2⟩], StreamEnd.exn ("connection reset") 4, 5⟩,
          JsonOutcome.exn ("") 0⟩) =
        errResult ("p") ("connection reset") (4 - 1) ∧
    send_request decodeW ("p") false 1
        (HttpOutcome.response ⟨200, (""), 0, ⟨[], StreamEnd.normal, 0⟩,
          JsonOutcome.exn ("decode failure") 6⟩) =
        errResult ("p") ("decode failure") (6 - 1) := by
  refine ⟨(send_request_exception_contained decodeW ("p") 1).1 true ("timeout") 3,
    (send_request_exception_contained decodeW ("p") 1).2.1 _ ("connection reset") 4 rfl rfl,
    (send_request_exception_contained decodeW ("p") 1).2.2 _ ("decode failure") 6 rfl rfl⟩

/-- Claim C9: when every result of the batch has status error, the ok
partition is empty and run_bench skips summary generation entirely,
producing no summary statistics at all. -/
theorem all_failed_skips_summary (rs : List RequestResult) (wall : ℚ)
    (h : ∀ r ∈ rs, r.status = ("error")) :
    run_bench_summary rs wall = none := by
  have hnil : okList rs = [] := by
    refine List.filter_eq_nil_iff.mpr fun r hr => ?_
    have := h r hr
    simp [this]
  simp [run_bench_summary, hnil]

/-- Witness for C9: a batch of two failed requests produces no summary. -/
theorem all_failed_skips_summary_witness :
    run_bench_summary [⟨("a"), ("error"), 0, 1, 0, 0, 0, ("boom")⟩,
      ⟨("b"), ("error"), 0, 2, 0, 0, 0, ("HTTP 500: x")⟩] 7 = none :=
  all_failed_skips_summary _ 7 (by decide)

/-- Claim C10: every streamed request that completes with status ok has
at least one completion token: the fallback estimate is at least one
even on empty accumulated text, and a zero-valued usage field is ignored
rather than written through. -/
theorem stream_ok_completion_tokens_pos (decode : String → Option Chunk)
    (prompt : String) (t0 : ℚ) (outcome : HttpOutcome)
    (h : (send_request decode prompt true t0 outcome).status = ("ok")) :
    1 ≤ (send_request decode prompt true t0 outcome).completion_tokens := by
  rcases outcome with ⟨m, t⟩ | r
  · simp [send_request, errResult] at h
  · by_cases h200 : r.status = 200
    · rcases hso : streamOutcome decode r.sbody with ⟨m, t⟩ | s
      · rw [show send_request decode prompt true t0 (HttpOutcome.response r) =
            errResult prompt m (t - t0) by simp [send_request, h200, hso]] at h
        simp [errResult] at h
      · rw [send_request_stream_ok h200 hso]
        simp only [finishStream]
        split
        · exact Nat.le_max_left 1 _
        · split
          · split_ifs with hv
            · omega
            · exact Nat.le_max_left 1 _
          · exact Nat.le_max_left 1 _
    · rw [send_request_non200 decode prompt true t0 r h200] at h
      simp at h

/-- Witness for C10: a streamed request whose stream carries no lines at
all completes ok with exactly one completion token. -/
theorem stream_ok_completion_tokens_pos_witness :
    (send_request decodeW ("p") true 0
        (HttpOutcome.response ⟨200, (""), 0, ⟨[], StreamEnd.normal, 3⟩,
          JsonOutcome.exn ("") 0⟩)).status = ("ok") ∧
    1 ≤ (send_request decodeW ("p") true 0
        (HttpOutcome.response ⟨200, (""), 0, ⟨[], StreamEnd.normal, 3⟩,
          JsonOutcome.exn ("") 0⟩)).completion_tokens :=
  ⟨by decide, stream_ok_completion_tokens_pos decodeW ("p") 0 _ (by decide)⟩

/-- A successful stream consumption means the line loop ran out of lines
or broke on the DONE sentinel, delivering the same final state. -/
theorem streamOutcome_ok_runLines {decode : String → Option Chunk} {b : StreamBody}
    {s : LoopState} (h : streamOutcome decode b = Except.ok s) :
    runLines decode initLoopState b.lines = LoopResult.ranOut s ∨
    runLines decode initLoopState b.lines = LoopResult.broke s := by
  unfold streamOutcome at h
  rcases hr : runLines decode initLoopState b.lines with s' | s' | ⟨m, t⟩ <;>
    rw [hr] at h <;> simp only [] at h
  · rcases he : b.ending with _ | ⟨m, t⟩ <;> rw [he] at h <;> simp only [] at h
    · injection h with h
      subst h
      exact Or.inl rfl
    · exact Except.noConfusion h
  · injection h with h
    subst h
    exact Or.inr rfl
  · exact Except.noConfusion h

/-- A loop step that continues either leaves the last decoded chunk
unchanged or stores a chunk decoded from the payload of the line. -/
theorem stepLine_cont_lastChunk {decode : String → Option Chunk} {s₀ : LoopState}
    {l : TimedLine} {s₁ : LoopState} (h : stepLine decode s₀ l = StepOut.cont s₁) :
    s₁.lastChunk = s₀.lastChunk ∨
    ∃ ch, decode (payloadOf l) = some ch ∧ s₁.lastChunk = some ch := by
  unfold stepLine at h
  split at h
  · split at h
    · exact StepOut.noConfusion h
    · rcases hd : decode (payloadOf l) with _ | ch <;> rw [hd] at h <;> simp only [] at h
      · injection h with h
        exact Or.inl (by rw [← h])
      · rcases hch : ch.choices with _ | ⟨_ | ⟨c, cs⟩⟩ <;> rw [hch] at h <;>
          simp only [] at h
        · injection h with h
          exact Or.inr ⟨ch, rfl, by rw [← h]; rfl⟩
        · exact StepOut.noConfusion h
        · injection h with h
          exact Or.inr ⟨ch, rfl, by rw [← h]; rfl⟩
  · injection h with h
    exact Or.inl (by rw [← h])

/-- Every chunk recorded as last chunk by a completed run of the line
loop either was already recorded at entry or was decoded from the
payload of one of the processed lines. -/
theorem runLines_lastChunk {decode : String → Option Chunk} :
    ∀ (lines : List TimedLine) (s₀ sf : LoopState),
    (runLines decode s₀ lines = LoopResult.ranOut sf ∨
     runLines decode s₀ lines = LoopResult.broke sf) →
    sf.lastChunk = s₀.lastChunk ∨
    ∃ l ∈ lines, ∃ ch, decode (payloadOf l) = some ch ∧ sf.lastChunk = some ch := by
  intro lines
  induction lines with
  | nil =>
    intro s₀ sf h
    rcases h with h | h
    · simp only [runLines] at h
      injection h with h
      exact Or.inl (h ▸ rfl)
    · simp only [runLines] at h
      exact LoopResult.noConfusion h
  | cons l ls ih =>
    intro s₀ sf h
    rcases hsl : stepLine decode s₀ l with s₁ | _ | ⟨m, t⟩
    · have h' : runLines decode s₁ ls = LoopResult.ranOut sf ∨
          runLines decode s₁ ls = LoopResult.broke sf := by
        rcases h with h | h
        · exact Or.inl (by rw [← h]; simp [runLines, hsl])
        · exact Or.inr (by rw [← h]; simp [runLines, hsl])
      rcases ih s₁ sf h' with heq | ⟨l', hl', ch, hd, hc⟩
      · rcases stepLine_cont_lastChunk hsl with h₀ | ⟨ch, hd, hc⟩
        · exact Or.inl (heq.trans h₀)
        · exact Or.inr ⟨l, List.mem_cons_self l ls, ch, hd, heq.trans hc⟩
      · exact Or.inr ⟨l', List.mem_cons_of_mem l hl', ch, hd, hc⟩
    · have hbr : runLines decode s₀ (l :: ls) = LoopResult.broke s₀ := by
        simp [runLines, hsl]
      rcases h with h | h <;> rw [hbr] at h
      · exact LoopResult.noConfusion h
      · injection h with h
        exact Or.inl (h ▸ rfl)
    · have hfl : runLines decode s₀ (l :: ls) = LoopResult.failed m t := by
        simp [runLines, hsl]
      rcases h with h | h <;> rw [hfl] at h <;> exact LoopResult.noConfusion h

/-- Counterexample to claim C1 as stated: the first streamed event
decodes to a chunk whose usage block reports five completion tokens, a
later event decodes without a usage block, the request completes ok, yet
the returned completion-token count is the character heuristic two, not
five: the code only consults the usage block of the last successfully
decoded chunk, so the position of the usage-bearing event does matter. -/
theorem usage_midstream_not_applied :
    (decodeW ("A")).bind (fun ch => (ch.usage.getD emptyUsage).completion_tokens) = some 5 ∧
    (send_request decodeW ("p") true 0
        (HttpOutcome.response ⟨200, (""), 0,
          ⟨[⟨("data: A"), 1⟩, ⟨("data: B"), 2⟩], StreamEnd.normal, 3⟩,
          JsonOutcome.exn ("") 0⟩)).status = ("ok") ∧
    (send_request decodeW ("p") true 0
        (HttpOutcome.response ⟨200, (""), 0,
          ⟨[⟨("data: A"), 1⟩, ⟨("data: B"), 2⟩], StreamEnd.normal, 3⟩,
          JsonOutcome.exn ("") 0⟩)).completion_tokens = 2 := by
  refine ⟨by decide, by decide, by decide⟩

/-- Amended claim C1: when the LAST successfully decoded chunk of a
stream that completes ok carries a usage block with a nonzero
completion-token or prompt-token value, that server-reported value
overwrites the client-side estimate in the returned result. -/
theorem usage_override_from_last_chunk (decode : String → Option Chunk)
    (prompt : String) (t0 : ℚ) (r : RespData) (s : LoopState) (c : Chunk)
    (h200 : r.status = 200)
    (hs : streamOutcome decode r.sbody = Except.ok s)
    (hc : s.lastChunk = some c) :
    (∀ v : ℕ, (c.usage.getD emptyUsage).completion_tokens = some v → v ≠ 0 →
      (send_request decode prompt true t0 (HttpOutcome.response r)).completion_tokens = v) ∧
    (∀ w : ℕ, (c.usage.getD emptyUsage).prompt_tokens = some w → w ≠ 0 →
      (send_request decode prompt true t0 (HttpOutcome.response r)).prompt_tokens = w) := by
  rw [send_request_stream_ok h200 hs]
  constructor
  · intro v hv hv0
    simp [finishStream, hc, hv, hv0]
  · intro w hw hw0
    simp [finishStream, hc, hw, hw0]

/-- Witness for the amended C1: content fragments of six and five
characters followed by a final chunk whose usage block reports five
completion tokens and seven prompt tokens yield exactly those counts,
overriding the character heuristic. -/
theorem usage_override_from_last_chunk_witness :
    (send_request decodeW ("p") true 0
        (HttpOutcome.response ⟨200, (""), 0,
          ⟨[⟨("data: B"), 1⟩, ⟨("data: A"), 2⟩], StreamEnd.normal, 3⟩,
          JsonOutcome.exn ("") 0⟩)).completion_tokens = 5 ∧
    (send_request decodeW ("p") true 0
        (HttpOutcome.response ⟨200, (""), 0,
          ⟨[⟨("data: B"), 1⟩, ⟨("data: A"), 2⟩], StreamEnd.normal, 3⟩,
          JsonOutcome.exn ("") 0⟩)).prompt_tokens = 7 := by
  have h := usage_override_from_last_chunk decodeW ("p") 0
    ⟨200, (""), 0, ⟨[⟨("data: B"), 1⟩, ⟨("data: A"), 2⟩], StreamEnd.normal, 3⟩,
      JsonOutcome.exn ("") 0⟩
    ⟨("worldHello!"), some ⟨some [⟨some ⟨some ("Hello!")⟩⟩], some ⟨some 7, some 5⟩⟩, some 1⟩
    ⟨some [⟨some ⟨some ("Hello!")⟩⟩], some ⟨some 7, some 5⟩⟩
    rfl rfl rfl
  exact ⟨h.1 5 rfl (by decide), h.2 7 rfl (by decide)⟩

/-- Claim C2: when a streamed request completes ok and no decodable
payload of the stream carries a usage block, the returned
completion-token count is the character heuristic max 1 of the length of
the accumulated text divided by four. -/
theorem fallback_token_estimate (decode : String → Option Chunk) (prompt : String)
    (t0 : ℚ) (r : RespData) (s : LoopState)
    (h200 : r.status = 200)
    (hs : streamOutcome decode r.sbody = Except.ok s)
    (hnou : ∀ l ∈ r.sbody.lines, ∀ ch : Chunk, decode (payloadOf l) = some ch →
      ch.usage = none) :
    (send_request decode prompt true t0 (HttpOutcome.response r)).completion_tokens =
      max 1 (s.completionText.length / 4) := by
  rw [send_request_stream_ok h200 hs]
  rcases runLines_lastChunk r.sbody.lines initLoopState s (streamOutcome_ok_runLines hs)
    with hnone | ⟨l, hl, ch, hd, hc⟩
  · have hl0 : s.lastChunk = none := by simpa [initLoopState] using hnone
    simp [finishStream, hl0]
  · have hu : ch.usage = none := hnou l hl ch hd
    simp [finishStream, hc, hu, emptyUsage]

/-- Witness for C2: a single content fragment of seventeen characters
and no usage block anywhere yield completion tokens max 1 of seventeen
divided by four, which is four. -/
theorem fallback_token_estimate_witness :
    (send_request decodeW ("p") true 0
        (HttpOutcome.response ⟨200, (""), 0,
          ⟨[⟨("data: C"), 1⟩], StreamEnd.normal, 2⟩,
          JsonOutcome.exn ("") 0⟩)).completion_tokens =
      max 1 ((("qwertyuiopasdfghj") : String).length / 4) ∧
    max 1 ((("qwertyuiopasdfghj") : String).length / 4) = 4 := by
  refine ⟨?_, by decide⟩
  have h := fallback_token_estimate decodeW ("p") 0
    ⟨200, (""), 0, ⟨[⟨("data: C"), 1⟩], StreamEnd.normal, 2⟩, JsonOutcome.exn ("") 0⟩
    ⟨("qwertyuiopasdfghj"), some ⟨some [⟨some ⟨some ("qwertyuiopasdfghj")⟩⟩], none⟩, some 1⟩
    rfl rfl ?_
  · exact h
  · intro l hl ch hd
    rw [List.mem_singleton] at hl
    subst hl
    have hdec : decodeW (payloadOf ⟨("data: C"), 1⟩) =
        some ⟨some [⟨some ⟨some ("qwertyuiopasdfghj")⟩⟩], none⟩ := rfl
    rw [hdec] at hd
    injection hd with hd
    rw [← hd]

/-- The line loop skips a data line whose payload fails to decode: the
loop result on any surrounding lines is unchanged by its presence. -/
theorem runLines_skip_bad {decode : String → Option Chunk} (bad : TimedLine)
    (hdata : startsWithData (pyStrip bad.text) = true)
    (hnd : payloadOf bad ≠ ("[DONE]"))
    (hdec : decode (payloadOf bad) = none) :
    ∀ (l₁ : List TimedLine) (s : LoopState) (l₂ : List TimedLine),
    runLines decode s (l₁ ++ bad :: l₂) = runLines decode s (l₁ ++ l₂) := by
  intro l₁
  induction l₁ with
  | nil =>
    intro s l₂
    have hstep : stepLine decode s bad = StepOut.cont s := by
      simp [stepLine, hdata, hnd, hdec]
    simp [runLines, hstep]
  | cons x xs ih =>
    intro s l₂
    simp only [List.cons_append, runLines]
    rcases hx : stepLine decode s x with s₁ | _ | ⟨m, t⟩
    · exact ih s₁ l₂
    · rfl
    · rfl

/-- Claim C5: inserting one undecodable data line anywhere into the
stream leaves the result of send_request unchanged: a decode failure on
one payload skips that payload and the session continues. -/
theorem malformed_data_line_skipped (decode : String → Option Chunk) (prompt : String)
    (t0 : ℚ) (txt : String) (tt : ℚ) (jb : JsonOutcome) (bad : TimedLine)
    (l₁ l₂ : List TimedLine) (ending : StreamEnd) (endTime : ℚ)
    (hdata : startsWithData (pyStrip bad.text) = true)
    (hnd : payloadOf bad ≠ ("[DONE]"))
    (hdec : decode (payloadOf bad) = none) :
    send_request decode prompt true t0
        (HttpOutcome.response ⟨200, txt, tt, ⟨l₁ ++ bad :: l₂, ending, endTime⟩, jb⟩) =
      send_request decode prompt true t0
        (HttpOutcome.response ⟨200, txt, tt, ⟨l₁ ++ l₂, ending, endTime⟩, jb⟩) := by
  have hrl := runLines_skip_bad bad hdata hnd hdec l₁ initLoopState l₂
  simp [send_request, streamOutcome, hrl]

/-- Witness for C5: an undecodable data line sandwiched between two valid
event lines leaves the final result identical to the stream without it. -/
theorem malformed_data_line_skipped_witness :
    decodeW (payloadOf ⟨("data: ???"), 5⟩) = none ∧
    send_request decodeW ("p") true 0
        (HttpOutcome.response ⟨200, (""), 0,
          ⟨[⟨("data: B"), 1⟩] ++ ⟨("data: ???"), 5⟩ :: [⟨("data: A"), 2⟩],
            StreamEnd.normal, 3⟩, JsonOutcome.exn ("") 0⟩) =
      send_request decodeW ("p") true 0
        (HttpOutcome.response ⟨200, (""), 0,
          ⟨[⟨("data: B"), 1⟩] ++ [⟨("data: A"), 2⟩], StreamEnd.normal, 3⟩,
          JsonOutcome.exn ("") 0⟩) :=
  ⟨by decide,
    malformed_data_line_skipped decodeW ("p") 0 ("") 0 (JsonOutcome.exn ("") 0)
      ⟨("data: ???"), 5⟩ [⟨("data: B"), 1⟩] [⟨("data: A"), 2⟩] StreamEnd.normal 3
      (by decide) (by decide) (by decide)⟩

/-- Claim C7: for a non-empty ok set, the reported median tokens per
second is the element at index half the length, rounded down, of any
ascending sort of the per-request tokens-per-second values: the lower
median, with no interpolation. -/
theorem median_lower_convention (rs : List RequestResult) (wall : ℚ) (s : BatchSummary)
    (l : List ℚ) (hs : run_bench_summary rs wall = some s)
    (hperm : l.Perm (tpsList rs)) (hsort : l.Sorted (· ≤ ·)) :
    s.p50 = l.getD ((tpsList rs).length / 2) 0 := by
  simp only [run_bench_summary] at hs
  split at hs
  · exact Option.noConfusion hs
  · injection hs with hs
    subst hs
    have hleq : l = ((okList rs).map (fun r => r.tokens_per_sec)).mergeSort := by
      refine List.eq_of_perm_of_sorted ?_ hsort (List.sorted_mergeSort' _)
      exact hperm.trans (List.mergeSort_perm _ _).symm
    simp only [tpsList] at hleq ⊢
    rw [hleq, List.length_map]

/-- Witness for C7: four ok results with tokens-per-second values 20,
10, 40, 30 in completion order sort to 10, 20, 30, 40, and the reported
median is 30, the element at index two, not the interpolated 25. -/
theorem median_lower_convention_witness :
    run_bench_summary
      [⟨("a"), ("ok"), 0, 1, 0, 1, 20, ("")⟩, ⟨("b"), ("ok"), 0, 1, 0, 1, 10, ("")⟩,
       ⟨("c"), ("ok"), 0, 1, 0, 1, 40, ("")⟩, ⟨("d"), ("ok"), 0, 1, 0, 1, 30, ("")⟩] 2 =
      some ⟨4, 0, 4, 0, 25, 2, 0, 30, 40, 10⟩ ∧
    (30 : ℚ) = [(10 : ℚ), 20, 30, 40].getD
      ((tpsList [⟨("a"), ("ok"), 0, 1, 0, 1, 20, ("")⟩, ⟨("b"), ("ok"), 0, 1, 0, 1, 10, ("")⟩,
        ⟨("c"), ("ok"), 0, 1, 0, 1, 40, ("")⟩,
        ⟨("d"), ("ok"), 0, 1, 0, 1, 30, ("")⟩]).length / 2) 0 := by
  have hs : run_bench_summary
      [⟨("a"), ("ok"), 0, 1, 0, 1, 20, ("")⟩, ⟨("b"), ("ok"), 0, 1, 0, 1, 10, ("")⟩,
       ⟨("c"), ("ok"), 0, 1, 0, 1, 40, ("")⟩, ⟨("d"), ("ok"), 0, 1, 0, 1, 30, ("")⟩] 2 =
      some ⟨4, 0, 4, 0, 25, 2, 0, 30, 40, 10⟩ := by
    norm_num [run_bench_summary, okList, List.mergeSort, List.merge]
  refine ⟨hs, ?_⟩
  have h := median_lower_convention
    [⟨("a"), ("ok"), 0, 1, 0, 1, 20, ("")⟩, ⟨("b"), ("ok"), 0, 1, 0, 1, 10, ("")⟩,
     ⟨("c"), ("ok"), 0, 1, 0, 1, 40, ("")⟩, ⟨("d"), ("ok"), 0, 1, 0, 1, 30, ("")⟩] 2
    ⟨4, 0, 4, 0, 25, 2, 0, 30, 40, 10⟩ [(10 : ℚ), 20, 30, 40] hs
    (by decide) (by decide)
  exact h

/-- The largest element of a list of rationals is invariant under
permutation. -/
theorem max?_perm_rat {l₁ l₂ : List ℚ} (h : l₁.Perm l₂) : l₁.max? = l₂.max? := by
  haveI : Std.Antisymm ((· : ℚ) ≤ ·) := ⟨fun hab hba => le_antisymm hab hba⟩
  cases h1 : l₁.max? with
  | none =>
    rw [List.max?_eq_none_iff] at h1
    subst h1
    have h2 : l₂ = [] := (List.perm_nil.mp h.symm)
    rw [h2]
    rfl
  | some a =>
    rw [List.max?_eq_some_iff (fun a => le_refl a) (fun a b => max_choice a b)
      (fun a b c => max_le_iff)] at h1
    rw [eq_comm, List.max?_eq_some_iff (fun a => le_refl a) (fun a b => max_choice a b)
      (fun a b c => max_le_iff)]
    exact ⟨h.mem_iff.mp h1.1, fun b hb => h1.2 b (h.mem_iff.mpr hb)⟩

/-- The smallest element of a list of rationals is invariant under
permutation. -/
theorem min?_perm_rat {l₁ l₂ : List ℚ} (h : l₁.Perm l₂) : l₁.min? = l₂.min? := by
  haveI : Std.Antisymm ((· : ℚ) ≤ ·) := ⟨fun hab hba => le_antisymm hab hba⟩
  cases h1 : l₁.min? with
  | none =>
    rw [List.min?_eq_none_iff] at h1
    subst h1
    have h2 : l₂ = [] := (List.perm_nil.mp h.symm)
    rw [h2]
    rfl
  | some a =>
    rw [List.min?_eq_some_iff (fun a => le_refl a) (fun a b => min_choice a b)
      (fun a b c => le_min_iff)] at h1
    rw [eq_comm, List.min?_eq_some_iff (fun a => le_refl a) (fun a b => min_choice a b)
      (fun a b c => le_min_iff)]
    exact ⟨h.mem_iff.mp h1.1, fun b hb => h1.2 b (h.mem_iff.mpr hb)⟩

/-- Claim C6: the aggregation of run_bench is invariant under
permutation of the result list: shuffling the completion order changes
none of the reported statistics. -/
theorem run_bench_summary_perm_invariant (rs₁ rs₂ : List RequestResult) (wall : ℚ)
    (h : rs₁.Perm rs₂) :
    run_bench_summary rs₁ wall = run_bench_summary rs₂ wall := by
  have hok : (okList rs₁).Perm (okList rs₂) := h.filter _
  have htps : (((okList rs₁).map (fun r => r.tokens_per_sec))).Perm
      ((okList rs₂).map (fun r => r.tokens_per_sec)) := hok.map _
  have hlen : (okList rs₁).length = (okList rs₂).length := hok.length_eq
  have hempty : (okList rs₁).isEmpty = (okList rs₂).isEmpty := by
    cases e1 : (okList rs₁).isEmpty <;> cases e2 : (okList rs₂).isEmpty <;> try rfl
    · exfalso
      have h2 : okList rs₂ = [] := by simpa using e2
      have h1 : ¬ okList rs₁ = [] := by simpa using e1
      exact h1 (List.length_eq_zero.mp (by rw [hlen, h2, List.length_nil]))
    · exfalso
      have h1 : okList rs₁ = [] := by simpa using e1
      have h2 : ¬ okList rs₂ = [] := by simpa using e2
      exact h2 (List.length_eq_zero.mp (by rw [← hlen, h1, List.length_nil]))
  have hsum_c : ((okList rs₁).map (fun r => r.completion_tokens)).sum =
      ((okList rs₂).map (fun r => r.completion_tokens)).sum := (hok.map _).sum_eq
  have hsum_p : ((okList rs₁).map (fun r => r.prompt_tokens)).sum =
      ((okList rs₂).map (fun r => r.prompt_tokens)).sum := (hok.map _).sum_eq
  have hsum_t : ((okList rs₁).map (fun r => r.tokens_per_sec)).sum =
      ((okList rs₂).map (fun r => r.tokens_per_sec)).sum := htps.sum_eq
  have httft : (((okList rs₁).filter (fun r => r.ttft_ms ≠ 0)).map
      (fun r => r.ttft_ms)).Perm
      (((okList rs₂).filter (fun r => r.ttft_ms ≠ 0)).map (fun r => r.ttft_ms)) :=
    (hok.filter _).map _
  have httft_sum := httft.sum_eq
  have httft_len := httft.length_eq
  have hsorted : ((okList rs₁).map (fun r => r.tokens_per_sec)).mergeSort =
      ((okList rs₂).map (fun r => r.tokens_per_sec)).mergeSort :=
    List.eq_of_perm_of_sorted
      ((List.mergeSort_perm _ _).trans (htps.trans (List.mergeSort_perm _ _).symm))
      (List.sorted_mergeSort' _) (List.sorted_mergeSort' _)
  have hmax := max?_perm_rat htps
  have hmin := min?_perm_rat htps
  have hlenall : rs₁.length = rs₂.length := h.length_eq
  simp only [run_bench_summary]
  rw [hempty, hlen, hsum_c, hsum_p, hsum_t, httft_sum, httft_len, hsorted,
    hmax, hmin, hlenall]

/-- Witness for C6: swapping the completion order of one ok result and
one error result leaves the summary unchanged. -/
theorem run_bench_summary_perm_invariant_witness :
    run_bench_summary [⟨("a"), ("ok"), 5, 1, 2, 8, 10, ("")⟩,
        ⟨("b"), ("error"), 0, 1, 0, 0, 0, ("boom")⟩] 3 =
      run_bench_summary [⟨("b"), ("error"), 0, 1, 0, 0, 0, ("boom")⟩,
        ⟨("a"), ("ok"), 5, 1, 2, 8, 10, ("")⟩] 3 :=
  run_bench_summary_perm_invariant _ _ 3
    (List.Perm.swap (⟨("b"), ("error"), 0, 1, 0, 0, 0, ("boom")⟩ : RequestResult)
      (⟨("a"), ("ok"), 5, 1, 2, 8, 10, ("")⟩ : RequestResult) [])

/-- Inversion principle for orchestrator steps. -/
theorem ostep_cases {C : ℕ} {ws ws' : List WStatus} (h : OStep C ws ws') :
    (∃ l₁ l₂, ws = l₁ ++ WStatus.waiting :: l₂ ∧ ws' = l₁ ++ WStatus.running :: l₂ ∧
      runningCount ws < C) ∨
    (∃ l₁ l₂, ws = l₁ ++ WStatus.running :: l₂ ∧ ws' = l₁ ++ WStatus.done :: l₂) := by
  cases h with
  | start l₁ l₂ hlt => exact Or.inl ⟨l₁, l₂, rfl, rfl, hlt⟩
  | finish l₁ l₂ => exact Or.inr ⟨l₁, l₂, rfl, rfl⟩

/-- Invariant of the orchestrator: every reachable state has one entry
per submitted worker and never more than C workers holding a slot. -/
theorem oreach_inv {C N : ℕ} {s : List WStatus} (h : OReachable C N s) :
    s.length = N ∧ runningCount s ≤ C := by
  induction h with
  | init =>
    refine ⟨List.length_replicate _ _, ?_⟩
    have h0 : runningCount (List.replicate N WStatus.waiting) = 0 := by
      induction N with
      | zero => rfl
      | succ n ih =>
        rw [List.replicate_succ]
        simp +decide [runningCount, List.countP_cons] at ih ⊢
    omega
  | step hr hst ih =>
    obtain ⟨ih1, ih2⟩ := ih
    rcases ostep_cases hst with ⟨l₁, l₂, heq, heq', hlt⟩ | ⟨l₁, l₂, heq, heq'⟩
    · subst heq
      subst heq'
      constructor
      · simp only [List.length_append, List.length_cons] at ih1 ⊢
        omega
      · simp +decide [runningCount, List.countP_append, List.countP_cons] at hlt ⊢
        omega
    · subst heq
      subst heq'
      constructor
      · simp only [List.length_append, List.length_cons] at ih1 ⊢
        omega
      · simp +decide [runningCount, List.countP_append, List.countP_cons] at ih2 ⊢
        omega

/-- In a terminal state of an orchestrator with positive capacity, every
worker is done: a running worker could finish and, with no running
worker, a waiting worker could start. -/
theorem oterminal_all_done {C : ℕ} (hC : 1 ≤ C) {ws : List WStatus}
    (hT : OTerminal C ws) : ∀ w ∈ ws, w = WStatus.done := by
  have hnr : ∀ w ∈ ws, w ≠ WStatus.running := by
    intro w hw hrun
    subst hrun
    obtain ⟨l₁, l₂, rfl⟩ := List.append_of_mem hw
    exact hT _ (OStep.finish l₁ l₂)
  intro w hw
  by_contra hne
  have hwait : w = WStatus.waiting := by
    cases w
    · rfl
    · exact absurd rfl (hnr _ hw)
    · exact absurd rfl hne
  subst hwait
  obtain ⟨l₁, l₂, rfl⟩ := List.append_of_mem hw
  have hrc : runningCount (l₁ ++ WStatus.waiting :: l₂) = 0 := by
    apply List.countP_eq_zero.mpr
    intro a ha
    have hne := hnr a ha
    cases a
    · decide
    · exact absurd rfl hne
    · decide
  exact hT _ (OStep.start l₁ l₂ (by rw [hrc]; omega))

/-- Counterexample to claim C3 as stated: the claim ranges over every
concurrency cap C with C less than or equal to N, but with cap zero and
one prompt the initial state is reachable and terminal: no worker can
ever acquire a slot, the batch deadlocks, and zero of the required one
results are produced. -/
theorem zero_parallel_deadlock :
    OReachable 0 1 [WStatus.waiting] ∧ OTerminal 0 [WStatus.waiting] ∧
    doneCount [WStatus.waiting] = 0 := by
  refine ⟨?_, ?_, rfl⟩
  · exact OReachable.init
  · intro ws' h
    rcases ostep_cases h with ⟨l₁, l₂, heq, hne, hlt⟩ | ⟨l₁, l₂, heq, hne⟩
    · exact absurd hlt (Nat.not_lt_zero _)
    · rcases l₁ with _ | ⟨a, t⟩ <;> simp at heq

/-- Amended claim C3: for every prompt count N and concurrency cap C
with 1 ≤ C ≤ N, every reachable orchestrator state has at most C
requests in flight, and every terminal reachable state has all N
results produced; with cap zero the batch instead deadlocks. -/
theorem run_bench_bounded_and_complete (N C : ℕ) (hC : 1 ≤ C) (_hCN : C ≤ N)
    (s : List WStatus) (hreach : OReachable C N s) :
    runningCount s ≤ C ∧ (OTerminal C s → doneCount s = N) := by
  refine ⟨(oreach_inv hreach).2, fun hT => ?_⟩
  have hall := oterminal_all_done hC hT
  have hlen := (oreach_inv hreach).1
  have hdc : doneCount s = s.length := by
    apply List.countP_eq_length.mpr
    intro a ha
    rw [hall a ha]
    decide
  rw [hdc, hlen]

/-- Witness for the amended C3: with one prompt and cap one, the state
with the single worker done is reachable through an acquire and a
release, at most one worker was ever in flight, and exactly one result
is produced. -/
theorem run_bench_bounded_and_complete_witness :
    runningCount [WStatus.done] ≤ 1 ∧ doneCount [WStatus.done] = 1 := by
  have h := run_bench_bounded_and_complete 1 1 (by decide) (by decide) [WStatus.done]
    (OReachable.step (OReachable.step OReachable.init (OStep.start [] [] (by decide)))
      (OStep.finish [] []))
  refine ⟨h.1, h.2 ?_⟩
  intro ws' hstep
  rcases ostep_cases hstep with ⟨l₁, l₂, heq, hne, hlt⟩ | ⟨l₁, l₂, heq, hne⟩ <;>
    rcases l₁ with _ | ⟨a, t⟩ <;> simp at heq

end VBench
